import Mathlib

/-!
Verification of the encrypted configuration store of the `aabot` repository.

The development shallowly embeds:
  * `server/services/encryptionService.ts` (`EncryptionService`): AES-256-GCM
    encryption of configuration secrets, hex-encoded as `iv ++ ciphertext ++ authTag`;
  * the configuration repository (`DatabaseStorage.getBotConfiguration`,
    `createBotConfiguration`, `updateBotConfiguration`, `encryptConfiguration`,
    `decryptConfiguration`) over the `bot_configurations` table of `shared/schema.ts`.

Modelling conventions:
  * Bytes are `Nat` values (< 256 where it matters); byte strings are `List Nat`.
  * Node's `crypto` AES-256-GCM primitive is an abstract parameter (`Gcm`):
    `encUpd` is `cipher.update/final` producing the hex ciphertext string,
    `encTag` is `cipher.getAuthTag`, and `dec` is
    `createDecipheriv/setAuthTag/update/final`, returning `none` when the
    decipher throws (tag verification failure).  Claims about the cipher hold
    under explicitly stated, pointwise assumptions that express the documented
    AEAD contract of AES-256-GCM (round-trip correctness, tag unforgeability).
  * `randomBytes(16)` draws (the per-call IVs) are modelled by an explicit
    stream `ivStream : Nat -> List Nat`; `generateSalt()` and `randomUUID()`
    results are explicit arguments of the repository operations.
  * SHA-256 (`createHash('sha256')`) is an abstract parameter `hash`.
  * `process.env.*` values are fields of the environment record `Env`;
    `DATABASE_URL?.slice(-10) || 'default'` is modelled by the single field
    `dbSuffix` holding the resulting string.
  * Thrown `Error`s become `none` / `Except.error msg` with the source's
    message strings; JavaScript string falsiness (`!s`) is the test `s = ""`,
    and falsiness of a nullable column is `falsyO` below.
  * The database rows of `bot_configurations` are a `List BotConfiguration`
    in insertion order; `select().limit(1)` is `List.head?`, drizzle's
    `insert` appends, and `update().where(eq(id, x))` maps over the list.
    Drizzle omits `undefined` members of a `set`/`values` object, which is
    modelled by `Option`-valued patch fields (`none` = field not written).
-/

namespace Aabot

/- # Definitions -/

/-- One lowercase hex digit, as produced by Node's `Buffer.toString('hex')`. -/
def hexChar (n : Nat) : Char :=
  if n < 10 then Char.ofNat (48 + n) else Char.ofNat (87 + n)

/-- Hex encoding of a byte list (`Buffer.toString('hex')`), as characters. -/
def bytesToHexL : List Nat → List Char
  | [] => []
  | b :: bs => hexChar (b / 16) :: hexChar (b % 16) :: bytesToHexL bs

/-- Hex encoding of a byte list as a `String`. -/
def bytesToHex (bs : List Nat) : String := ⟨bytesToHexL bs⟩

/-- Value of one hex character; `Buffer.from(-, 'hex')` accepts both cases. -/
def hexCharVal (c : Char) : Option Nat :=
  if 48 ≤ c.toNat ∧ c.toNat ≤ 57 then some (c.toNat - 48)
  else if 97 ≤ c.toNat ∧ c.toNat ≤ 102 then some (c.toNat - 87)
  else if 65 ≤ c.toNat ∧ c.toNat ≤ 70 then some (c.toNat - 55)
  else none

/-- Hex decoding as done by Node's `Buffer.from(s, 'hex')`: bytes are parsed
pairwise, parsing stops at the first invalid pair or dangling character. -/
def hexPairsToBytes : List Char → List Nat
  | c1 :: c2 :: rest =>
    match hexCharVal c1, hexCharVal c2 with
    | some h, some l => (16 * h + l) :: hexPairsToBytes rest
    | _, _ => []
  | _ => []

/-- The AES-256-GCM primitive of Node's `crypto` module, abstractly:
`encUpd key iv plaintext` is the hex ciphertext accumulated by
`cipher.update(plaintext, 'utf8', 'hex') + cipher.final('hex')`;
`encTag key iv plaintext` is `cipher.getAuthTag()` as bytes; and
`dec key iv hexCiphertext tagBytes` is the decipher pipeline, `none` when
`decipher.final` throws because the authentication tag does not verify. -/
structure Gcm where
  encUpd : List Nat → List Nat → String → String
  encTag : List Nat → List Nat → String → List Nat
  dec : List Nat → List Nat → String → List Nat → Option String

/-- The ambient process environment and external primitives of the service. -/
structure Env where
  G : Gcm
  hash : String → List Nat
  dbSuffix : String
  apacheAnswerApiUrlEnv : Option String
  apacheAnswerApiKeyEnv : Option String
  slackBotTokenEnv : Option String
  slackAppTokenEnv : Option String
  slackChannelIdEnv : Option String
  slackSigningSecretEnv : Option String
  searchResultLimitEnv : Option String
  ivStream : Nat → List Nat

/-- The key-derivation passphrase
`` `AABot-${salt}-${process.env.DATABASE_URL?.slice(-10) || 'default'}` ``. -/
def passphrase (salt dbSuffix : String) : String :=
  "AABot-" ++ salt ++ "-" ++ dbSuffix

/-- The derived 256-bit master key (total form, used in theorem statements). -/
def masterKey (E : Env) (salt : String) : List Nat :=
  E.hash (passphrase salt E.dbSuffix)

/-- `EncryptionService.deriveMasterKey`: throws (`none`) when the salt is
falsy (the empty string), otherwise hashes the passphrase. -/
def deriveMasterKey (E : Env) (salt : String) : Option (List Nat) :=
  if salt = "" then none else some (masterKey E salt)

/-- `EncryptionService.encrypt(plaintext, salt)`.  The empty plaintext
short-circuits to `""` before anything else; otherwise the key is derived
(failing on a falsy salt) and the result is
`hex(iv) ++ hexCiphertext ++ hex(authTag)`.  The fresh `randomBytes(16)` IV
is the explicit argument `iv`. -/
def encrypt (E : Env) (iv : List Nat) (plaintext salt : String) : Option String :=
  if plaintext = "" then some ""
  else
    match deriveMasterKey E salt with
    | none => none
    | some key =>
      some (bytesToHex iv ++ E.G.encUpd key iv plaintext
              ++ bytesToHex (E.G.encTag key iv plaintext))

/-- The string produced by a successful non-trivial `encrypt`. -/
def encBody (E : Env) (iv : List Nat) (p salt : String) : String :=
  bytesToHex iv ++ E.G.encUpd (masterKey E salt) iv p
    ++ bytesToHex (E.G.encTag (masterKey E salt) iv p)

/-- `EncryptionService.decrypt(encryptedValue, salt)`.  The empty input
short-circuits to `""`; otherwise the key is derived, the IV is
`slice(0, 32)` hex-decoded, the tag is `slice(-32)` hex-decoded, the
ciphertext is `slice(32, -32)`, and the decipher runs (`none` = throw). -/
def decrypt (E : Env) (encryptedValue salt : String) : Option String :=
  if encryptedValue = "" then some ""
  else
    match deriveMasterKey E salt with
    | none => none
    | some key =>
      let d := encryptedValue.data
      let iv := hexPairsToBytes (d.take 32)
      let authTag := hexPairsToBytes (d.drop (d.length - 32))
      let encrypted : String := ⟨(d.take (d.length - 32)).drop 32⟩
      E.G.dec key iv encrypted authTag

/-- `EncryptionService.testEncryption(salt)`: round-trips a fixed probe
value, returning `false` when either direction throws or the result
differs. -/
def testEncryption (E : Env) (iv : List Nat) (salt : String) : Bool :=
  match encrypt E iv "test-encryption-value" salt with
  | none => false
  | some enc =>
    match decrypt E enc salt with
    | none => false
    | some d => if d = "test-encryption-value" then true else false

/- ## Concrete instantiations of the abstract primitives (used by witnesses) -/

/-- A computable model cipher: the "ciphertext" is the plaintext itself and
the 16-byte tag is determined by the key, so decryption succeeds exactly
when the tag matches the key's tag. -/
def toyGcm : Gcm where
  encUpd := fun _ _ p => p
  encTag := fun k _ _ => List.replicate 16 ((k.foldl (· + ·) 0) % 256)
  dec := fun k _ ct tag =>
    if tag = List.replicate 16 ((k.foldl (· + ·) 0) % 256) then some ct else none

def toyEnv : Env where
  G := toyGcm
  hash := fun s => s.data.map Char.toNat
  dbSuffix := "default"
  apacheAnswerApiUrlEnv := none
  apacheAnswerApiKeyEnv := none
  slackBotTokenEnv := none
  slackAppTokenEnv := none
  slackChannelIdEnv := none
  slackSigningSecretEnv := none
  searchResultLimitEnv := none
  ivStream := fun _ => List.replicate 16 0

/-- A model cipher that accepts exactly one decoded-ciphertext/tag pair per
key: used to discharge the AEAD unforgeability hypotheses at concrete
inputs.  Like Node's decipher, it reads its hex-string ciphertext argument
only through `Buffer.from(-, 'hex')`, i.e. through `hexPairsToBytes`, so it
is invariant under hex-case changes of that argument. -/
def strictGcm : Gcm where
  encUpd := fun _ _ p => p
  encTag := fun k _ _ => List.replicate 16 ((k.foldl (· + ·) 0) % 256)
  dec := fun k _ ct tag =>
    if hexPairsToBytes ct.data = hexPairsToBytes ("C4-secret" : String).data
        ∧ tag = List.replicate 16 ((k.foldl (· + ·) 0) % 256)
    then some "C4-secret" else none

def strictEnv : Env := { toyEnv with G := strictGcm }

/-- A model environment whose decipher always fails (used to exercise the
self-test failure path). -/
def brokenEnv : Env :=
  { toyEnv with G := { toyGcm with dec := fun _ _ _ _ => none } }

/-- The concrete encrypted string used by the C4 witness. -/
def c4sc : String :=
  (encrypt strictEnv (List.replicate 16 0) "C4-secret" "k1").getD ""

/-- The concrete encrypted string used by the C4 counterexample: the tag
bytes are `0x8a`, whose hex spelling contains the letter `a`. -/
def c4c : String :=
  (encrypt toyEnv (List.replicate 16 0) "hello" "k9").getD ""

/-- `c4c` with the case bit of the final hex digit of the auth-tag segment
flipped (`'a'` to `'A'`, a single-bit change of that character). -/
def c4tampered : String := ⟨c4c.data.set 68 'A'⟩

/- ## The configuration repository (`DatabaseStorage` over `bot_configurations`) -/

/-- A stored row of the `bot_configurations` table (`shared/schema.ts`).
The six sensitive columns and `encryption_salt` are nullable `text`;
timestamps are modelled as `Nat`. -/
structure BotConfiguration where
  id : String
  workspaceName : String
  apacheAnswerApiUrl : Option String
  apacheAnswerApiKey : Option String
  slackBotToken : Option String
  slackAppToken : Option String
  slackChannelId : Option String
  slackSigningSecret : Option String
  searchLimit : Int
  enableVoting : Bool
  encryptionSalt : Option String
  createdAt : Nat
  updatedAt : Nat
deriving DecidableEq, Repr, Inhabited

/-- `DecryptedBotConfiguration`: the application-facing view, sensitive
fields made non-null strings. -/
structure DecryptedBotConfiguration where
  id : String
  workspaceName : String
  apacheAnswerApiUrl : String
  apacheAnswerApiKey : String
  slackBotToken : String
  slackAppToken : String
  slackChannelId : String
  slackSigningSecret : String
  searchLimit : Int
  enableVoting : Bool
  encryptionSalt : Option String
  createdAt : Nat
  updatedAt : Nat
deriving DecidableEq, Repr

/-- `ConfigurationUpdate`: all members optional. -/
structure ConfigurationUpdate where
  workspaceName : Option String := none
  apacheAnswerApiUrl : Option String := none
  apacheAnswerApiKey : Option String := none
  slackBotToken : Option String := none
  slackAppToken : Option String := none
  slackChannelId : Option String := none
  slackSigningSecret : Option String := none
  searchLimit : Option Int := none
  enableVoting : Option Bool := none
deriving DecidableEq, Repr

/-- The object produced by `encryptConfiguration`: drizzle drops `undefined`
members from `set`/`values`, so every member is optional (`none` = member
absent, column untouched by an update). -/
structure BotConfigurationPatch where
  workspaceName : Option String
  searchLimit : Option Int
  enableVoting : Option Bool
  apacheAnswerApiUrl : Option String
  apacheAnswerApiKey : Option String
  slackBotToken : Option String
  slackAppToken : Option String
  slackChannelId : Option String
  slackSigningSecret : Option String
  encryptionSalt : Option String
deriving DecidableEq, Repr

/-- JavaScript falsiness of a nullable string column
(`null`/`undefined`/`""`). -/
def falsyO : Option String → Bool
  | none => true
  | some s => s = ""

/-- JavaScript `x || d` on an optional environment string. -/
def jsOr (o : Option String) (d : String) : String :=
  match o with
  | some s => if s = "" then d else s
  | none => d

/-- One sensitive field of `decryptConfiguration`'s encrypted branch:
`config.x ? decrypt(config.x, salt) : ''` (`none` = `decrypt` threw). -/
def decSens (E : Env) (salt : String) (v : Option String) : Option String :=
  match v with
  | some c => if c = "" then some "" else decrypt E c salt
  | none => some ""

/-- `DatabaseStorage.decryptConfiguration`: rows without a (truthy)
`encryptionSalt` are returned as-is with `|| ''` defaults (legacy path);
otherwise every truthy sensitive field is decrypted, a decryption throw
becoming `Configuration decryption failed`. -/
def decryptConfiguration (E : Env) (config : BotConfiguration) :
    Except String DecryptedBotConfiguration :=
  if falsyO config.encryptionSalt then
    .ok { id := config.id, workspaceName := config.workspaceName,
          apacheAnswerApiUrl := config.apacheAnswerApiUrl.getD "",
          apacheAnswerApiKey := config.apacheAnswerApiKey.getD "",
          slackBotToken := config.slackBotToken.getD "",
          slackAppToken := config.slackAppToken.getD "",
          slackChannelId := config.slackChannelId.getD "",
          slackSigningSecret := config.slackSigningSecret.getD "",
          searchLimit := config.searchLimit, enableVoting := config.enableVoting,
          encryptionSalt := config.encryptionSalt,
          createdAt := config.createdAt, updatedAt := config.updatedAt }
  else
    match decSens E (config.encryptionSalt.getD "") config.apacheAnswerApiUrl,
          decSens E (config.encryptionSalt.getD "") config.apacheAnswerApiKey,
          decSens E (config.encryptionSalt.getD "") config.slackBotToken,
          decSens E (config.encryptionSalt.getD "") config.slackAppToken,
          decSens E (config.encryptionSalt.getD "") config.slackChannelId,
          decSens E (config.encryptionSalt.getD "") config.slackSigningSecret with
    | some a, some b, some c, some d, some e, some f =>
        .ok { id := config.id, workspaceName := config.workspaceName,
              apacheAnswerApiUrl := a, apacheAnswerApiKey := b,
              slackBotToken := c, slackAppToken := d,
              slackChannelId := e, slackSigningSecret := f,
              searchLimit := config.searchLimit, enableVoting := config.enableVoting,
              encryptionSalt := config.encryptionSalt,
              createdAt := config.createdAt, updatedAt := config.updatedAt }
    | _, _, _, _, _, _ => .error "Configuration decryption failed"

/-- One sensitive field of `encryptConfiguration`:
`config.x ? encrypt(config.x, salt) : undefined`.  The result pairs the
produced member (`none` = `undefined`) with the next IV-stream index; the
outer `Option` is a thrown encryption error. -/
def encSens (E : Env) (salt : String) (v : Option String) (n : Nat) :
    Option (Option String) × Nat :=
  match v with
  | some s =>
    if s = "" then (some none, n)
    else
      match encrypt E (E.ivStream n) s salt with
      | some c => (some (some c), n + 1)
      | none => (none, n + 1)
  | none => (some none, n)

/-- What a successful `encSens` contributes to the patch, as a function of
the IV index it consumed. -/
def encOpt (E : Env) (salt : String) (v : Option String) (n : Nat) :
    Option String :=
  match v with
  | some s => if s = "" then none else some (encBody E (E.ivStream n) s salt)
  | none => none

/-- `DatabaseStorage.encryptConfiguration(config, salt)`: builds the drizzle
patch object; non-sensitive members pass through, truthy sensitive members
are encrypted (in source order, each consuming one fresh IV from the
stream starting at index `n0`), and `encryptionSalt` is stamped.  A thrown
encryption error becomes `Configuration encryption failed`. -/
def encryptConfiguration (E : Env) (config : ConfigurationUpdate)
    (salt : String) (n0 : Nat) : Except String BotConfigurationPatch :=
  let r1 := encSens E salt config.apacheAnswerApiUrl n0
  let r2 := encSens E salt config.apacheAnswerApiKey r1.2
  let r3 := encSens E salt config.slackBotToken r2.2
  let r4 := encSens E salt config.slackAppToken r3.2
  let r5 := encSens E salt config.slackChannelId r4.2
  let r6 := encSens E salt config.slackSigningSecret r5.2
  match r1.1, r2.1, r3.1, r4.1, r5.1, r6.1 with
  | some a, some b, some c, some d, some e, some f =>
      .ok { workspaceName := config.workspaceName,
            searchLimit := config.searchLimit,
            enableVoting := config.enableVoting,
            apacheAnswerApiUrl := a, apacheAnswerApiKey := b,
            slackBotToken := c, slackAppToken := d,
            slackChannelId := e, slackSigningSecret := f,
            encryptionSalt := some salt }
  | _, _, _, _, _, _ => .error "Configuration encryption failed"

/-- `DatabaseStorage.getBotConfiguration`: first row (`limit(1)`) decrypted,
`none` when the table is empty. -/
def getBotConfiguration (E : Env) (db : List BotConfiguration) :
    Except String (Option DecryptedBotConfiguration) :=
  match db.head? with
  | none => .ok none
  | some config => (decryptConfiguration E config).map some

/-- `DatabaseStorage.createBotConfiguration`.  `salt` is the fresh
`generateSalt()` result and `uuid` the `randomUUID()` result.  The self-test
runs before any write; on failure nothing is inserted.  NOTE the source's
`{workspaceName: enc.workspaceName || "Apache Team", ...enc}` spread: the
spread re-overwrites `workspaceName` with `enc.workspaceName` (possibly
`undefined`), so the `"Apache Team"` fallback is dead and an absent
`workspaceName` violates the column's not-null constraint at insert time. -/
def createBotConfiguration (E : Env) (salt uuid : String) (now : Nat)
    (config : ConfigurationUpdate) (db : List BotConfiguration) :
    Except String DecryptedBotConfiguration × List BotConfiguration :=
  if testEncryption E (E.ivStream 0) salt then
    match encryptConfiguration E config salt 1 with
    | .error e => (.error e, db)
    | .ok patch =>
      match patch.workspaceName with
      | none =>
        (.error "null value in column workspace_name violates not-null constraint", db)
      | some wn =>
        let row : BotConfiguration := {
          id := uuid, workspaceName := wn,
          apacheAnswerApiUrl := patch.apacheAnswerApiUrl,
          apacheAnswerApiKey := patch.apacheAnswerApiKey,
          slackBotToken := patch.slackBotToken,
          slackAppToken := patch.slackAppToken,
          slackChannelId := patch.slackChannelId,
          slackSigningSecret := patch.slackSigningSecret,
          searchLimit := patch.searchLimit.getD 10,
          enableVoting := patch.enableVoting.getD true,
          encryptionSalt := patch.encryptionSalt,
          createdAt := now, updatedAt := now }
        match decryptConfiguration E row with
        | .error e => (.error e, db ++ [row])
        | .ok v => (.ok v, db ++ [row])
  else
    (.error "Encryption test failed - cannot create configuration", db)

/-- One column of a drizzle partial update: a present member overwrites,
an absent (`undefined`) member leaves the stored value. -/
def patchField (p old : Option String) : Option String :=
  match p with
  | some c => some c
  | none => old

/-- Drizzle's `update().set({...patch, updatedAt})` applied to one row:
present members overwrite, absent (`undefined`) members leave the column
unchanged. -/
def applyPatch (r : BotConfiguration) (p : BotConfigurationPatch)
    (now : Nat) : BotConfiguration := {
  id := r.id,
  workspaceName := p.workspaceName.getD r.workspaceName,
  apacheAnswerApiUrl := patchField p.apacheAnswerApiUrl r.apacheAnswerApiUrl,
  apacheAnswerApiKey := patchField p.apacheAnswerApiKey r.apacheAnswerApiKey,
  slackBotToken := patchField p.slackBotToken r.slackBotToken,
  slackAppToken := patchField p.slackAppToken r.slackAppToken,
  slackChannelId := patchField p.slackChannelId r.slackChannelId,
  slackSigningSecret := patchField p.slackSigningSecret r.slackSigningSecret,
  searchLimit := p.searchLimit.getD r.searchLimit,
  enableVoting := p.enableVoting.getD r.enableVoting,
  encryptionSalt := patchField p.encryptionSalt r.encryptionSalt,
  createdAt := r.createdAt,
  updatedAt := now }

/-- Decimal value of a leading digit run; `none` when there is none. -/
def digitsPrefixVal (l : List Char) : Option Nat :=
  let ds := l.takeWhile (fun c => 48 ≤ c.toNat && c.toNat ≤ 57)
  if ds = [] then none
  else some (ds.foldl (fun a c => 10 * a + (c.toNat - 48)) 0)

/-- Modelled JavaScript `parseInt` on the strings this code feeds it: an
optional sign followed by a decimal-digit prefix; `none` stands for `NaN`
("0x" prefixes and leading whitespace are not modelled). -/
def jsParseInt (s : String) : Option Int :=
  match s.data with
  | '-' :: rest => (digitsPrefixVal rest).map (fun n => -(n : Int))
  | '+' :: rest => (digitsPrefixVal rest).map (fun n => (n : Int))
  | l => (digitsPrefixVal l).map (fun n => (n : Int))

/-- The `defaultConfig` object built by `updateBotConfiguration` when no
record exists, from environment variables and fixed fallbacks. -/
def defaultConfig (E : Env) : ConfigurationUpdate := {
  workspaceName := some "Apache Team",
  apacheAnswerApiUrl := some (jsOr E.apacheAnswerApiUrlEnv "https://meta.answer.dev"),
  apacheAnswerApiKey := some (jsOr E.apacheAnswerApiKeyEnv ""),
  slackBotToken := some (jsOr E.slackBotTokenEnv ""),
  slackAppToken := some (jsOr E.slackAppTokenEnv ""),
  slackChannelId := some (jsOr E.slackChannelIdEnv ""),
  slackSigningSecret := some (jsOr E.slackSigningSecretEnv ""),
  searchLimit := jsParseInt (jsOr E.searchResultLimitEnv "10"),
  enableVoting := some true }

/-- The salt used by the update path:
`rawConfig?.encryptionSalt || encryptionService.generateSalt()`, where
`rawConfig` is the re-read first row and `fresh` the (lazily drawn)
`generateSalt()` result. -/
def saltOf (fresh : String) (db : List BotConfiguration) : String :=
  match db.head? with
  | some r => (match r.encryptionSalt with
               | some s => if s = "" then fresh else s
               | none => fresh)
  | none => fresh

/-- `DatabaseStorage.updateBotConfiguration`.  With no existing record it
delegates to `create` passing ONLY `defaultConfig` (the caller's `config`
is not merged in); otherwise it re-reads the raw row, reuses its salt (or a
fresh one if the row is legacy/salt-less), encrypts the supplied fields and
applies a partial update to the row with `existing.id`, refreshing
`updatedAt`.  `salt` models the (at most one) `generateSalt()` draw and
`uuid` the `randomUUID()` of the create path. -/
def updateBotConfiguration (E : Env) (salt uuid : String) (now : Nat)
    (config : ConfigurationUpdate) (db : List BotConfiguration) :
    Except String DecryptedBotConfiguration × List BotConfiguration :=
  match getBotConfiguration E db with
  | .error e => (.error e, db)
  | .ok none => createBotConfiguration E salt uuid now (defaultConfig E) db
  | .ok (some existing) =>
    match encryptConfiguration E config (saltOf salt db) 0 with
    | .error e => (.error e, db)
    | .ok patch =>
      let db' := db.map (fun r => if r.id = existing.id then applyPatch r patch now else r)
      match (db'.filter (fun r => r.id = existing.id)).head? with
      | none => (.error "update returned no rows", db')
      | some updated =>
        match decryptConfiguration E updated with
        | .error e => (.error e, db')
        | .ok v => (.ok v, db')

/- ## Invariants, operation sequences and fixed witness data -/

/-- `c` is a string that `encrypt` can produce for some non-empty plaintext
under `salt` (with a 16-byte IV, as `randomBytes(16)` always supplies). -/
def IsCiphertextUnder (E : Env) (salt c : String) : Prop :=
  ∃ iv p, iv.length = 16 ∧ p ≠ "" ∧ encrypt E iv p salt = some c

/-- A sensitive column respects a salt: if non-empty, it is a ciphertext
produced under that salt. -/
def sensInv (E : Env) (salt : String) (v : Option String) : Prop :=
  ∀ c, v = some c → c ≠ "" → IsCiphertextUnder E salt c

/-- The spec's at-rest invariant for one row: if `encryptionSalt` is
present (and truthy), every non-empty sensitive field is ciphertext
produced under that same salt. -/
def ConfigInvariant (E : Env) (r : BotConfiguration) : Prop :=
  ∀ s, r.encryptionSalt = some s → s ≠ "" →
    sensInv E s r.apacheAnswerApiUrl ∧ sensInv E s r.apacheAnswerApiKey ∧
    sensInv E s r.slackBotToken ∧ sensInv E s r.slackAppToken ∧
    sensInv E s r.slackChannelId ∧ sensInv E s r.slackSigningSecret

/-- Every IV drawn from the stream has the 16 bytes `randomBytes(16)`
produces. -/
def IvStream16 (E : Env) : Prop := ∀ n, (E.ivStream n).length = 16

/-- The environment round-trips every non-trivial encryption (the AEAD
correctness contract, quantified over the IV stream). -/
def RoundTripEnv (E : Env) : Prop :=
  ∀ (n : Nat) (p salt : String), p ≠ "" → salt ≠ "" →
    decrypt E ((encrypt E (E.ivStream n) p salt).getD "") salt = some p

/-- No sensitive environment variable except possibly the Apache Answer URL
is set (so the built-in defaults apply). -/
def NoSensEnv (E : Env) : Prop :=
  falsyO E.apacheAnswerApiKeyEnv = true ∧ falsyO E.slackBotTokenEnv = true ∧
  falsyO E.slackAppTokenEnv = true ∧ falsyO E.slackChannelIdEnv = true ∧
  falsyO E.slackSigningSecretEnv = true

/-- A repository operation, as exposed by `IStorage` (the create operation
is kept separate because it is exercised directly by one counterexample). -/
inductive RepoOp where
  | getCfg : RepoOp
  | updateCfg (salt uuid : String) (now : Nat) (config : ConfigurationUpdate) : RepoOp
deriving Repr

/-- Effect of one repository operation on the stored rows. -/
def applyRepoOp (E : Env) (db : List BotConfiguration) : RepoOp → List BotConfiguration
  | .getCfg => db
  | .updateCfg salt uuid now config =>
      (updateBotConfiguration E salt uuid now config db).2

/-- Sequential execution of repository operations. -/
def runRepoOps (E : Env) : List RepoOp → List BotConfiguration → List BotConfiguration
  | [], db => db
  | op :: ops, db => runRepoOps E ops (applyRepoOp E db op)

/-- A hand-inserted legacy row: no `encryptionSalt`, one plain-text secret. -/
def legacyRow : BotConfiguration := {
  id := "row0", workspaceName := "Legacy",
  apacheAnswerApiUrl := none, apacheAnswerApiKey := none,
  slackBotToken := some "xoxb-AAA", slackAppToken := none,
  slackChannelId := none, slackSigningSecret := none,
  searchLimit := 10, enableVoting := true,
  encryptionSalt := none, createdAt := 0, updatedAt := 0 }

/-- What `updateBotConfiguration` leaves behind after a `workspaceName`-only
update of `legacyRow`: a fresh salt is stamped, the plain-text secret stays. -/
def legacyPatched : BotConfiguration := {
  legacyRow with workspaceName := "X", encryptionSalt := some "s1", updatedAt := 9 }

/-- A salted row with no stored secrets (used by the C6 witness). -/
def saltedRow : BotConfiguration := {
  id := "row1", workspaceName := "W",
  apacheAnswerApiUrl := none, apacheAnswerApiKey := none,
  slackBotToken := none, slackAppToken := none,
  slackChannelId := none, slackSigningSecret := none,
  searchLimit := 10, enableVoting := true,
  encryptionSalt := some "s1", createdAt := 1, updatedAt := 1 }

/- # Theorems -/

/- ## Basic facts about the hex encoding -/

theorem bytesToHexL_length (bs : List Nat) : (bytesToHexL bs).length = 2 * bs.length := by
  induction bs with
  | nil => rfl
  | cons b bs ih => simp [bytesToHexL, ih]; ring

theorem hexCharVal_hexChar : ∀ n, n < 16 → hexCharVal (hexChar n) = some n := by
  decide

theorem hex_roundtrip (bs : List Nat) (h : ∀ b ∈ bs, b < 256) :
    hexPairsToBytes (bytesToHexL bs) = bs := by
  induction bs with
  | nil => rfl
  | cons b bs ih =>
    have hb : b < 256 := h b (by simp)
    have h1 : b / 16 < 16 := Nat.div_lt_of_lt_mul (by omega)
    have h2 : b % 16 < 16 := Nat.mod_lt _ (by omega)
    have hrest : ∀ x ∈ bs, x < 256 := fun x hx => h x (by simp [hx])
    have hmod := Nat.div_add_mod b 16
    simp [bytesToHexL, hexPairsToBytes, hexCharVal_hexChar _ h1,
      hexCharVal_hexChar _ h2, ih hrest]
    omega

theorem string_data_append (a b : String) : (a ++ b).data = a.data ++ b.data := rfl

theorem string_mk_data (s : String) : (⟨s.data⟩ : String) = s := rfl

/- ## Slicing the combined `hex(iv) ++ ciphertext ++ hex(tag)` string -/

theorem take32_of_triple {l1 m l3 : List Char} (h1 : l1.length = 32) :
    ((l1 ++ m) ++ l3).take 32 = l1 := by
  rw [List.append_assoc, ← h1, List.take_left]

theorem drop_sub32_of_triple {l1 m l3 : List Char} (h1 : l1.length = 32)
    (h3 : l3.length = 32) :
    ((l1 ++ m) ++ l3).drop (((l1 ++ m) ++ l3).length - 32) = l3 := by
  have h : ((l1 ++ m) ++ l3).length - 32 = (l1 ++ m).length := by
    simp only [List.length_append, h1, h3]; omega
  rw [h, List.drop_left]

theorem mid_of_triple {l1 m l3 : List Char} (h1 : l1.length = 32)
    (h3 : l3.length = 32) :
    (((l1 ++ m) ++ l3).take (((l1 ++ m) ++ l3).length - 32)).drop 32 = m := by
  have h : ((l1 ++ m) ++ l3).length - 32 = (l1 ++ m).length := by
    simp only [List.length_append, h1, h3]; omega
  rw [h, List.take_left, ← h1, List.drop_left]

theorem encrypt_pos (E : Env) (iv : List Nat) {p salt : String}
    (hp : p ≠ "") (hsalt : salt ≠ "") :
    encrypt E iv p salt = some (encBody E iv p salt) := by
  simp [encrypt, deriveMasterKey, encBody, hp, hsalt]

/-- Unfolding `decrypt` on a non-empty input with a non-falsy salt. -/
theorem decrypt_unfold (E : Env) {c salt : String} (hcne : c ≠ "")
    (hsalt : salt ≠ "") :
    decrypt E c salt =
      E.G.dec (masterKey E salt) (hexPairsToBytes (c.data.take 32))
        ⟨(c.data.take (c.data.length - 32)).drop 32⟩
        (hexPairsToBytes (c.data.drop (c.data.length - 32))) := by
  simp [decrypt, hcne, deriveMasterKey, hsalt]

/-- Decomposition of the string produced by `encrypt`: its three slices
recover exactly the IV, the ciphertext and the auth tag. -/
theorem combined_slices (E : Env) (iv : List Nat) {p salt c : String}
    (hp : p ≠ "") (hsalt : salt ≠ "")
    (hivlen : iv.length = 16) (hivb : ∀ b ∈ iv, b < 256)
    (htaglen : (E.G.encTag (masterKey E salt) iv p).length = 16)
    (htagb : ∀ b ∈ E.G.encTag (masterKey E salt) iv p, b < 256)
    (hc : encrypt E iv p salt = some c) :
    c ≠ "" ∧
    hexPairsToBytes (c.data.take 32) = iv ∧
    (⟨(c.data.take (c.data.length - 32)).drop 32⟩ : String)
      = E.G.encUpd (masterKey E salt) iv p ∧
    hexPairsToBytes (c.data.drop (c.data.length - 32))
      = E.G.encTag (masterKey E salt) iv p := by
  have hcval := encrypt_pos E iv hp hsalt
  rw [hc] at hcval
  have hceq := Option.some.inj hcval
  have hdata : c.data =
      (bytesToHexL iv ++ (E.G.encUpd (masterKey E salt) iv p).data)
        ++ bytesToHexL (E.G.encTag (masterKey E salt) iv p) := by
    rw [hceq]
    simp [encBody, string_data_append, bytesToHex]
  have h1 : (bytesToHexL iv).length = 32 := by
    rw [bytesToHexL_length, hivlen]
  have h3 : (bytesToHexL (E.G.encTag (masterKey E salt) iv p)).length = 32 := by
    rw [bytesToHexL_length, htaglen]
  have hcne : c ≠ "" := by
    intro h
    rw [h] at hdata
    have : ([] : List Char).length = 32 + (E.G.encUpd (masterKey E salt) iv p).data.length + 32 := by
      rw [show ([] : List Char) = ("" : String).data from rfl, hdata]
      simp [List.length_append, h1, h3]; omega
    simp at this
  refine ⟨hcne, ?_, ?_, ?_⟩
  · rw [hdata, take32_of_triple h1, hex_roundtrip iv hivb]
  · rw [hdata, mid_of_triple h1 h3, string_mk_data]
  · rw [hdata, drop_sub32_of_triple h1 h3,
      hex_roundtrip _ htagb]

/-- Core round-trip: decrypting the full encrypted string under the same
salt returns the plaintext, provided the GCM primitive round-trips at that
key, IV and plaintext (the AEAD correctness contract of AES-256-GCM). -/
theorem decrypt_encrypt (E : Env) (iv : List Nat) {p salt c : String}
    (hp : p ≠ "") (hsalt : salt ≠ "")
    (hivlen : iv.length = 16) (hivb : ∀ b ∈ iv, b < 256)
    (htaglen : (E.G.encTag (masterKey E salt) iv p).length = 16)
    (htagb : ∀ b ∈ E.G.encTag (masterKey E salt) iv p, b < 256)
    (hdec : E.G.dec (masterKey E salt) iv (E.G.encUpd (masterKey E salt) iv p)
        (E.G.encTag (masterKey E salt) iv p) = some p)
    (hc : encrypt E iv p salt = some c) :
    decrypt E c salt = some p := by
  obtain ⟨hcne, hiv, hmid, htag⟩ :=
    combined_slices E iv hp hsalt hivlen hivb htaglen htagb hc
  rw [decrypt_unfold E hcne hsalt, hiv, hmid, htag, hdec]

/- ## Claims about the Cipher -/

/-- Claim C3: for every non-empty string `s` and valid (non-falsy) salt `k`,
`decrypt(encrypt(s, k), k)` returns `s`.  The hypotheses are the AEAD
correctness contract of Node's AES-256-GCM at the derived key and given IV:
a 16-byte IV of bytes, a 16-byte auth tag of bytes, and the decipher
round-tripping the primitive's own output. -/
theorem C3_roundtrip (E : Env) (iv : List Nat) (s salt : String)
    (hs : s ≠ "") (hsalt : salt ≠ "")
    (hivlen : iv.length = 16) (hivb : ∀ b ∈ iv, b < 256)
    (htaglen : (E.G.encTag (masterKey E salt) iv s).length = 16)
    (htagb : ∀ b ∈ E.G.encTag (masterKey E salt) iv s, b < 256)
    (hdec : E.G.dec (masterKey E salt) iv (E.G.encUpd (masterKey E salt) iv s)
        (E.G.encTag (masterKey E salt) iv s) = some s)
    (c : String) (hc : encrypt E iv s salt = some c) :
    decrypt E c salt = some s :=
  decrypt_encrypt E iv hs hsalt hivlen hivb htaglen htagb hdec hc

theorem C3_roundtrip_witness :
    decrypt toyEnv ((encrypt toyEnv (List.replicate 16 0) "hi" "k1").getD "") "k1"
      = some "hi" :=
  C3_roundtrip toyEnv (List.replicate 16 0) "hi" "k1"
    (by decide) (by decide) (by decide) (by decide) (by decide) (by decide)
    (by decide) ((encrypt toyEnv (List.replicate 16 0) "hi" "k1").getD "")
    (by decide)

/-- Claim C9: the empty string is a fixed point of both `encrypt` and
`decrypt` for every salt (short-circuit before any cryptographic work). -/
theorem C9_empty_fixed_point (E : Env) (iv : List Nat) (salt : String) :
    encrypt E iv "" salt = some "" ∧ decrypt E "" salt = some "" := by
  constructor <;> rfl

/-- Claim C10: the empty-input short-circuit precedes salt validation, so
empty input never errors even for the empty/missing salt, and the
salt-required failure fires exactly when the input is non-empty. -/
theorem C10_shortcircuit_before_salt_check (E : Env) (iv : List Nat) (p c : String) :
    (∀ salt, encrypt E iv "" salt = some "" ∧ decrypt E "" salt = some "") ∧
    (p ≠ "" → encrypt E iv p "" = none) ∧
    (c ≠ "" → decrypt E c "" = none) := by
  refine ⟨fun salt => ⟨rfl, rfl⟩, fun hp => ?_, fun hc => ?_⟩
  · simp [encrypt, deriveMasterKey, hp]
  · simp [decrypt, deriveMasterKey, hc]

theorem C10_shortcircuit_witness :
    encrypt toyEnv (List.replicate 16 0) "" "" = some "" ∧
    encrypt toyEnv (List.replicate 16 0) "x" "" = none ∧
    decrypt toyEnv "y" "" = none :=
  ⟨((C10_shortcircuit_before_salt_check toyEnv (List.replicate 16 0) "x" "y").1 "").1,
   (C10_shortcircuit_before_salt_check toyEnv (List.replicate 16 0) "x" "y").2.1 (by decide),
   (C10_shortcircuit_before_salt_check toyEnv (List.replicate 16 0) "x" "y").2.2 (by decide)⟩

/-- Claim C4 (amended): with `c = encrypt(s, salt)`, under the AEAD
contract of the decipher at the derived keys — it reads the hex ciphertext
argument only through its decoded bytes (`decipher.update(-, 'hex')` is
case-insensitive), it accepts only the decoded bytes and tag it genuinely
issued, and the key derived from a different salt rejects that pair:
(1) any string agreeing with `c` on the IV segment decrypts, if at all, to
the original `s` — never to a different plaintext;
(2) any such string whose ciphertext or auth-tag segment hex-decodes to
different bytes than the issued ones makes `decrypt` fail;
(3) any such string whose two segments hex-decode to exactly the issued
bytes — e.g. `c` with the case of hex digits flipped in either segment —
makes `decrypt` return the original `s`, with no error;
(4) decrypting `c` under the different salt fails.
What is therefore NOT true of the code is that every bit flip in those
segments raises an error: a case flip of a hex digit lands in case (3)
(see the counterexample). -/
theorem C4_tamper_and_salt_isolation (E : Env) (iv : List Nat)
    (s salt salt2 : String)
    (hs : s ≠ "") (hsalt : salt ≠ "") (hsalt2 : salt2 ≠ "")
    (hivlen : iv.length = 16) (hivb : ∀ b ∈ iv, b < 256)
    (htaglen : (E.G.encTag (masterKey E salt) iv s).length = 16)
    (htagb : ∀ b ∈ E.G.encTag (masterKey E salt) iv s, b < 256)
    (hext : ∀ ct ct' tg, hexPairsToBytes ct.data = hexPairsToBytes ct'.data →
        E.G.dec (masterKey E salt) iv ct tg
          = E.G.dec (masterKey E salt) iv ct' tg)
    (hacc : ∀ ct tg p, E.G.dec (masterKey E salt) iv ct tg = some p →
        hexPairsToBytes ct.data
          = hexPairsToBytes (E.G.encUpd (masterKey E salt) iv s).data ∧
        tg = E.G.encTag (masterKey E salt) iv s)
    (hcorr : E.G.dec (masterKey E salt) iv (E.G.encUpd (masterKey E salt) iv s)
        (E.G.encTag (masterKey E salt) iv s) = some s)
    (hrej : ∀ p, E.G.dec (masterKey E salt2) iv
        (E.G.encUpd (masterKey E salt) iv s)
        (E.G.encTag (masterKey E salt) iv s) = some p → False)
    (c : String) (hc : encrypt E iv s salt = some c) :
    (∀ c' p, c'.data.take 32 = c.data.take 32 →
        decrypt E c' salt = some p → p = s) ∧
    (∀ c', c'.data.take 32 = c.data.take 32 →
        (hexPairsToBytes ((c'.data.take (c'.data.length - 32)).drop 32)
            ≠ hexPairsToBytes (E.G.encUpd (masterKey E salt) iv s).data ∨
          hexPairsToBytes (c'.data.drop (c'.data.length - 32))
            ≠ E.G.encTag (masterKey E salt) iv s) →
        decrypt E c' salt = none) ∧
    (∀ c', c'.data.take 32 = c.data.take 32 →
        hexPairsToBytes ((c'.data.take (c'.data.length - 32)).drop 32)
          = hexPairsToBytes (E.G.encUpd (masterKey E salt) iv s).data →
        hexPairsToBytes (c'.data.drop (c'.data.length - 32))
          = E.G.encTag (masterKey E salt) iv s →
        decrypt E c' salt = some s) ∧
    decrypt E c salt2 = none := by
  obtain ⟨hcne, hiv, hmid, htag⟩ :=
    combined_slices E iv hs hsalt hivlen hivb htaglen htagb hc
  have hlen32 : (c.data.take 32).length = 32 := by
    have hcval := encrypt_pos E iv hs hsalt
    rw [hc] at hcval
    have hceq := Option.some.inj hcval
    have : c.data.length = 32 + (E.G.encUpd (masterKey E salt) iv s).data.length + 32 := by
      rw [hceq]
      simp [encBody, string_data_append, bytesToHex, bytesToHexL_length, hivlen, htaglen]
      omega
    rw [List.length_take, this]
    omega
  have hcne' : ∀ c' : String, c'.data.take 32 = c.data.take 32 → c' ≠ "" := by
    intro c' he h
    rw [h] at he
    have : ([] : List Char).length = 32 := by
      rw [show ([] : List Char) = (("" : String).data.take 32) from rfl, he, hlen32]
    simp at this
  refine ⟨?_, ?_, ?_, ?_⟩
  · intro c' p he hd
    rw [decrypt_unfold E (hcne' c' he) hsalt, he, hiv] at hd
    obtain ⟨hb1, hb2⟩ := hacc _ _ _ hd
    rw [hext _ _ _ hb1, hb2, hcorr] at hd
    exact (Option.some.inj hd).symm
  · intro c' he hne
    rw [decrypt_unfold E (hcne' c' he) hsalt, he, hiv]
    cases hres : E.G.dec (masterKey E salt) iv
        (⟨(c'.data.take (c'.data.length - 32)).drop 32⟩ : String)
        (hexPairsToBytes (c'.data.drop (c'.data.length - 32))) with
    | none => rfl
    | some p =>
      obtain ⟨hb1, hb2⟩ := hacc _ _ _ hres
      rcases hne with hne | hne
      · exact absurd hb1 hne
      · exact absurd hb2 hne
  · intro c' he hmideq htageq
    rw [decrypt_unfold E (hcne' c' he) hsalt, he, hiv, htageq]
    rw [hext (⟨(c'.data.take (c'.data.length - 32)).drop 32⟩ : String)
      (E.G.encUpd (masterKey E salt) iv s)
      (E.G.encTag (masterKey E salt) iv s) hmideq]
    exact hcorr
  · rw [decrypt_unfold E hcne hsalt2, hiv, hmid, htag]
    cases hres : E.G.dec (masterKey E salt2) iv
        (E.G.encUpd (masterKey E salt) iv s)
        (E.G.encTag (masterKey E salt) iv s) with
    | none => rfl
    | some p => exact absurd hres (fun h => hrej p h)

theorem strictGcm_dec_eq (k iv : List Nat) (ct : String) (tag : List Nat)
    (p : String) (h : strictGcm.dec k iv ct tag = some p) :
    hexPairsToBytes ct.data = hexPairsToBytes ("C4-secret" : String).data ∧
    tag = List.replicate 16 ((k.foldl (· + ·) 0) % 256)
      ∧ p = "C4-secret" := by
  simp only [strictGcm] at h
  split at h
  · next hcond => exact ⟨hcond.1, hcond.2, (Option.some.inj h).symm⟩
  · cases h

theorem C4_tamper_witness : decrypt strictEnv c4sc "k2" = none :=
  (C4_tamper_and_salt_isolation strictEnv (List.replicate 16 0) "C4-secret"
    "k1" "k2" (by decide) (by decide) (by decide) (by decide) (by decide)
    (by decide) (by decide)
    (fun ct ct' tg h => by
      show strictGcm.dec (masterKey strictEnv "k1") (List.replicate 16 0) ct tg
        = strictGcm.dec (masterKey strictEnv "k1") (List.replicate 16 0) ct' tg
      simp only [strictGcm]
      rw [h])
    (fun ct tg p h => by
      obtain ⟨h1, h2, _⟩ := strictGcm_dec_eq _ _ _ _ _ h
      exact ⟨h1, h2⟩)
    (by decide)
    (fun p h => by
      have hnone : strictEnv.G.dec (masterKey strictEnv "k2") (List.replicate 16 0)
          (strictEnv.G.encUpd (masterKey strictEnv "k1") (List.replicate 16 0) "C4-secret")
          (strictEnv.G.encTag (masterKey strictEnv "k1") (List.replicate 16 0) "C4-secret")
          = none := by decide
      rw [hnone] at h
      cases h)
    c4sc (by decide)).2.2.2

/-- Claim C4 counterexample: flipping one bit (bit 5, value 32) of a
character inside the auth-tag segment of the encrypted string does NOT make
`decrypt` fail: hex decoding is case-insensitive, so the tag decodes to the
same bytes and `decrypt` returns the original plaintext.  This falsifies
"flipping any bit in the ciphertext or auth-tag segment causes decrypt to
raise an error". -/
theorem C4_bitflip_counterexample :
    c4c.data.get? 68 = some 'a' ∧
    Nat.xor (Char.toNat 'a') (Char.toNat 'A') = 32 ∧
    c4c.length = 69 ∧
    68 ≥ c4c.length - 32 ∧
    c4tampered ≠ c4c ∧
    c4tampered.length = c4c.length ∧
    decrypt toyEnv c4c "k9" = some "hello" ∧
    decrypt toyEnv c4tampered "k9" = some "hello" := by
  decide

/- ## Storage-layer claims and helper lemmas -/

/-- Claim C5: `createBotConfiguration` runs the round-trip self-test before
any write; when it fails, the call raises the creation error
(`EncryptionUnavailable` in the spec's taxonomy) and the stored rows are
returned unchanged — nothing is persisted. -/
theorem C5_selftest_gates_create (E : Env) (salt uuid : String) (now : Nat)
    (config : ConfigurationUpdate) (db : List BotConfiguration)
    (h : testEncryption E (E.ivStream 0) salt = false) :
    createBotConfiguration E salt uuid now config db =
      (.error "Encryption test failed - cannot create configuration", db) := by
  simp [createBotConfiguration, h]

theorem C5_selftest_witness :
    createBotConfiguration brokenEnv "s1" "u1" 0 {} [] =
      (.error "Encryption test failed - cannot create configuration", []) :=
  C5_selftest_gates_create brokenEnv "s1" "u1" 0 {} [] (by decide)

/-- Claim C8: a stored row whose `encryptionSalt` is absent (or empty)
is returned by `getBotConfiguration` with the sensitive columns passed
through as stored (absent values becoming `""`), without error; and the
result does not depend on the environment's cryptographic primitives at
all — no decryption is performed. -/
theorem C8_legacy_passthrough (E : Env) (r : BotConfiguration)
    (rest : List BotConfiguration) (h : falsyO r.encryptionSalt = true) :
    getBotConfiguration E (r :: rest) =
      .ok (some
        { id := r.id, workspaceName := r.workspaceName,
          apacheAnswerApiUrl := r.apacheAnswerApiUrl.getD "",
          apacheAnswerApiKey := r.apacheAnswerApiKey.getD "",
          slackBotToken := r.slackBotToken.getD "",
          slackAppToken := r.slackAppToken.getD "",
          slackChannelId := r.slackChannelId.getD "",
          slackSigningSecret := r.slackSigningSecret.getD "",
          searchLimit := r.searchLimit, enableVoting := r.enableVoting,
          encryptionSalt := r.encryptionSalt,
          createdAt := r.createdAt, updatedAt := r.updatedAt }) ∧
    (∀ E' : Env, getBotConfiguration E' (r :: rest) = getBotConfiguration E (r :: rest)) := by
  constructor
  · simp [getBotConfiguration, decryptConfiguration, h, Except.map]
  · intro E'
    simp [getBotConfiguration, decryptConfiguration, h, Except.map]

theorem C8_legacy_witness :
    getBotConfiguration toyEnv [legacyRow] =
      .ok (some
        { id := "row0", workspaceName := "Legacy",
          apacheAnswerApiUrl := "", apacheAnswerApiKey := "",
          slackBotToken := "xoxb-AAA", slackAppToken := "",
          slackChannelId := "", slackSigningSecret := "",
          searchLimit := 10, enableVoting := true,
          encryptionSalt := none, createdAt := 0, updatedAt := 0 }) :=
  (C8_legacy_passthrough toyEnv legacyRow [] (by decide)).1

theorem encSens_fst (E : Env) (salt : String) (hsalt : salt ≠ "")
    (v : Option String) (n : Nat) :
    (encSens E salt v n).1 = some (encOpt E salt v n) := by
  cases v with
  | none => rfl
  | some s =>
    by_cases hs : s = ""
    · simp [encSens, encOpt, hs]
    · simp [encSens, encOpt, hs, encrypt_pos E (E.ivStream n) hs hsalt]

/-- With a truthy salt, `encryptConfiguration` always succeeds, producing
the pass-through members, the stamped salt, and per-field `encOpt` values
at some IV indices. -/
theorem encryptConfiguration_ok (E : Env) (cfg : ConfigurationUpdate)
    (salt : String) (hsalt : salt ≠ "") (n0 : Nat) :
    ∃ n1 n2 n3 n4 n5 n6 : Nat,
      encryptConfiguration E cfg salt n0 = .ok {
        workspaceName := cfg.workspaceName,
        searchLimit := cfg.searchLimit,
        enableVoting := cfg.enableVoting,
        apacheAnswerApiUrl := encOpt E salt cfg.apacheAnswerApiUrl n1,
        apacheAnswerApiKey := encOpt E salt cfg.apacheAnswerApiKey n2,
        slackBotToken := encOpt E salt cfg.slackBotToken n3,
        slackAppToken := encOpt E salt cfg.slackAppToken n4,
        slackChannelId := encOpt E salt cfg.slackChannelId n5,
        slackSigningSecret := encOpt E salt cfg.slackSigningSecret n6,
        encryptionSalt := some salt } := by
  simp only [encryptConfiguration, encSens_fst E salt hsalt]
  exact ⟨_, _, _, _, _, _, rfl⟩

/-- `decryptConfiguration` copies the non-sensitive columns verbatim. -/
theorem decryptConfiguration_ok_fields (E : Env) (r : BotConfiguration)
    (v : DecryptedBotConfiguration) (h : decryptConfiguration E r = .ok v) :
    v.id = r.id ∧ v.workspaceName = r.workspaceName ∧
    v.searchLimit = r.searchLimit ∧ v.enableVoting = r.enableVoting ∧
    v.encryptionSalt = r.encryptionSalt ∧
    v.createdAt = r.createdAt ∧ v.updatedAt = r.updatedAt := by
  unfold decryptConfiguration at h
  split at h
  · have hveq := Except.ok.inj h
    rw [← hveq]
    simp
  · split at h
    · have hveq := Except.ok.inj h
      rw [← hveq]
      simp
    · simp at h

/- ## More helper lemmas -/

theorem jsOr_ne_empty (o : Option String) {d : String} (hd : d ≠ "") :
    jsOr o d ≠ "" := by
  cases o with
  | none => exact hd
  | some s =>
    by_cases hs : s = ""
    · simp [jsOr, hs, hd]
    · simp [jsOr, hs]

theorem jsOr_falsy {o : Option String} (h : falsyO o = true) : jsOr o "" = "" := by
  cases o with
  | none => rfl
  | some s =>
    have : s = "" := by simpa [falsyO] using h
    simp [jsOr, this]

theorem encBody_data_length (E : Env) (iv : List Nat) (p salt : String) :
    (encBody E iv p salt).data.length =
      2 * iv.length + (E.G.encUpd (masterKey E salt) iv p).data.length
        + 2 * (E.G.encTag (masterKey E salt) iv p).length := by
  simp only [encBody, string_data_append, bytesToHex, List.length_append,
    bytesToHexL_length]

theorem encBody_ne_empty (E : Env) (iv : List Nat) (p salt : String)
    (h : iv.length = 16) : encBody E iv p salt ≠ "" := by
  intro hc
  have hlen := encBody_data_length E iv p salt
  rw [hc, h] at hlen
  simp at hlen
  omega

/-- A round-tripping environment passes the creation self-test for every
truthy salt. -/
theorem testEncryption_of_roundtrip (E : Env) (hrt : RoundTripEnv E)
    {salt : String} (hsalt : salt ≠ "") :
    testEncryption E (E.ivStream 0) salt = true := by
  have henc := encrypt_pos E (E.ivStream 0)
    (p := "test-encryption-value") (by decide) hsalt
  have hdec := hrt 0 "test-encryption-value" salt (by decide) hsalt
  rw [henc] at hdec
  simp only [Option.getD] at hdec
  unfold testEncryption
  rw [henc]
  simp [hdec]

theorem toyEnv_ivStream16 : IvStream16 toyEnv := by
  intro n
  simp [toyEnv]

theorem toyEnv_roundtrip : RoundTripEnv toyEnv := by
  intro n p salt hp hsalt
  have henc := encrypt_pos toyEnv (toyEnv.ivStream n) hp hsalt
  have h := decrypt_encrypt toyEnv (toyEnv.ivStream n) hp hsalt
    (by simp [toyEnv]) (by simp [toyEnv])
    (by simp [toyEnv, toyGcm]) ?_ ?_ henc
  · rw [henc]
    simpa using h
  · intro b hb
    simp only [toyEnv, toyGcm, List.mem_replicate] at hb
    omega
  · simp [toyEnv, toyGcm]

theorem sensInv_of_encOpt (E : Env) (hiv : IvStream16 E) {salt : String}
    (hsalt : salt ≠ "") (v : Option String) (n : Nat) :
    sensInv E salt (encOpt E salt v n) := by
  intro c hc hcne
  cases v with
  | none => simp [encOpt] at hc
  | some w =>
    by_cases hw : w = ""
    · simp [encOpt, hw] at hc
    · have hcval : c = encBody E (E.ivStream n) w salt := by
        simp [encOpt, hw] at hc
        exact hc.symm
      exact ⟨E.ivStream n, w, hiv n, hw, by
        rw [encrypt_pos E _ hw hsalt, hcval]⟩

theorem sensInv_update (E : Env) (s : String) (rf pf : Option String)
    (hold : sensInv E s rf) (hnew : sensInv E s pf) :
    sensInv E s (patchField pf rf) := by
  cases pf with
  | none => exact hold
  | some c0 => intro c hc hcne; exact hnew c hc hcne

/-- `decryptConfiguration` commutes with changing the non-sensitive
`searchLimit` and `updatedAt` columns. -/
theorem decryptConfiguration_frame (E : Env) (r : BotConfiguration)
    (n : Int) (now : Nat) :
    decryptConfiguration E { r with searchLimit := n, updatedAt := now }
      = (decryptConfiguration E r).map
          (fun v => { v with searchLimit := n, updatedAt := now }) := by
  by_cases hf : falsyO r.encryptionSalt = true
  · simp [decryptConfiguration, hf, Except.map]
  · simp only [decryptConfiguration, hf, if_false, Bool.false_eq_true]
    cases h1 : decSens E (r.encryptionSalt.getD "") r.apacheAnswerApiUrl with
    | none => simp [Except.map]
    | some a =>
      cases h2 : decSens E (r.encryptionSalt.getD "") r.apacheAnswerApiKey with
      | none => simp [Except.map]
      | some b =>
        cases h3 : decSens E (r.encryptionSalt.getD "") r.slackBotToken with
        | none => simp [Except.map]
        | some c =>
          cases h4 : decSens E (r.encryptionSalt.getD "") r.slackAppToken with
          | none => simp [Except.map]
          | some d =>
            cases h5 : decSens E (r.encryptionSalt.getD "") r.slackChannelId with
            | none => simp [Except.map]
            | some e =>
              cases h6 : decSens E (r.encryptionSalt.getD "") r.slackSigningSecret with
              | none => simp [Except.map]
              | some f => simp [Except.map]

/-- The second component of the final decrypt-and-return step of
`updateBotConfiguration` is the already-updated store, whatever the final
decryption does. -/
theorem snd_decrypt_match (E : Env) (row : BotConfiguration)
    (l : List BotConfiguration) :
    (match decryptConfiguration E row with
      | .error e => ((Except.error e : Except String DecryptedBotConfiguration), l)
      | .ok v => (Except.ok v, l)).2 = l := by
  cases decryptConfiguration E row <;> rfl

theorem applyPatch_id (r : BotConfiguration) (p : BotConfigurationPatch)
    (now : Nat) : (applyPatch r p now).id = r.id := rfl

/-- Claim C6 (amended): on a singleton store whose row carries a truthy
`encryptionSalt`, `update({searchLimit: n})` changes exactly `searchLimit`
and `updatedAt` of the stored row (the salt, the secrets and everything
else are untouched) and returns the decrypted view updated the same way —
the secrets remain decryptable.  Moreover, for an arbitrary update, every
field that is absent from it (falsy, for the sensitive fields) is left
unchanged (omitted is not cleared).  The restriction to a truthy stored
salt is forced by the counterexample: on a legacy, salt-less row the code
additionally stamps a fresh `encryptionSalt`. -/
theorem C6_partial_update_frame (E : Env) (fs uuid : String) (now : Nat)
    (r : BotConfiguration) (s : String)
    (hsalt : r.encryptionSalt = some s) (hs : s ≠ "")
    (ex : DecryptedBotConfiguration) (hex : decryptConfiguration E r = .ok ex)
    (n : Int) :
    updateBotConfiguration E fs uuid now { searchLimit := some n } [r] =
      (.ok { ex with searchLimit := n, updatedAt := now },
       [{ r with searchLimit := n, updatedAt := now }]) ∧
    (∀ u : ConfigurationUpdate, ∃ r' : BotConfiguration,
      (updateBotConfiguration E fs uuid now u [r]).2 = [r'] ∧
      r'.id = r.id ∧ r'.createdAt = r.createdAt ∧
      r'.encryptionSalt = r.encryptionSalt ∧
      (u.workspaceName = none → r'.workspaceName = r.workspaceName) ∧
      (u.searchLimit = none → r'.searchLimit = r.searchLimit) ∧
      (u.enableVoting = none → r'.enableVoting = r.enableVoting) ∧
      (falsyO u.apacheAnswerApiUrl = true → r'.apacheAnswerApiUrl = r.apacheAnswerApiUrl) ∧
      (falsyO u.apacheAnswerApiKey = true → r'.apacheAnswerApiKey = r.apacheAnswerApiKey) ∧
      (falsyO u.slackBotToken = true → r'.slackBotToken = r.slackBotToken) ∧
      (falsyO u.slackAppToken = true → r'.slackAppToken = r.slackAppToken) ∧
      (falsyO u.slackChannelId = true → r'.slackChannelId = r.slackChannelId) ∧
      (falsyO u.slackSigningSecret = true → r'.slackSigningSecret = r.slackSigningSecret)) := by
  have hid : ex.id = r.id := (decryptConfiguration_ok_fields E r ex hex).1
  have hget : getBotConfiguration E [r] = .ok (some ex) := by
    simp [getBotConfiguration, hex, Except.map]
  have hsaltOf : saltOf fs [r] = s := by
    simp [saltOf, hsalt, hs]
  constructor
  · have hframe := decryptConfiguration_frame E r n now
    rw [hex] at hframe
    rw [hsalt] at hframe
    simp [updateBotConfiguration, hget, hsaltOf, encryptConfiguration, encSens,
      applyPatch, patchField, hid, hsalt, Except.map, hframe]
  · intro u
    obtain ⟨n1, n2, n3, n4, n5, n6, hpatch⟩ :=
      encryptConfiguration_ok E u s hs 0
    refine ⟨applyPatch r {
        workspaceName := u.workspaceName,
        searchLimit := u.searchLimit,
        enableVoting := u.enableVoting,
        apacheAnswerApiUrl := encOpt E s u.apacheAnswerApiUrl n1,
        apacheAnswerApiKey := encOpt E s u.apacheAnswerApiKey n2,
        slackBotToken := encOpt E s u.slackBotToken n3,
        slackAppToken := encOpt E s u.slackAppToken n4,
        slackChannelId := encOpt E s u.slackChannelId n5,
        slackSigningSecret := encOpt E s u.slackSigningSecret n6,
        encryptionSalt := some s } now, ?_, ?_, ?_, ?_, ?_, ?_, ?_, ?_, ?_, ?_, ?_, ?_, ?_⟩
    · simp [updateBotConfiguration, hget, hsaltOf, hpatch, hid, applyPatch_id,
        snd_decrypt_match]
    · simp [applyPatch, patchField]
    · simp [applyPatch, patchField]
    · simp [applyPatch, patchField, hsalt]
    · intro hu; simp [applyPatch, patchField, hu]
    · intro hu; simp [applyPatch, patchField, hu]
    · intro hu; simp [applyPatch, patchField, hu]
    · intro hu
      have : encOpt E s u.apacheAnswerApiUrl n1 = none := by
        cases hv : u.apacheAnswerApiUrl with
        | none => rfl
        | some w =>
          have : w = "" := by simpa [falsyO, hv] using hu
          simp [encOpt, this]
      simp [applyPatch, patchField, this]
    · intro hu
      have : encOpt E s u.apacheAnswerApiKey n2 = none := by
        cases hv : u.apacheAnswerApiKey with
        | none => rfl
        | some w =>
          have : w = "" := by simpa [falsyO, hv] using hu
          simp [encOpt, this]
      simp [applyPatch, patchField, this]
    · intro hu
      have : encOpt E s u.slackBotToken n3 = none := by
        cases hv : u.slackBotToken with
        | none => rfl
        | some w =>
          have : w = "" := by simpa [falsyO, hv] using hu
          simp [encOpt, this]
      simp [applyPatch, patchField, this]
    · intro hu
      have : encOpt E s u.slackAppToken n4 = none := by
        cases hv : u.slackAppToken with
        | none => rfl
        | some w =>
          have : w = "" := by simpa [falsyO, hv] using hu
          simp [encOpt, this]
      simp [applyPatch, patchField, this]
    · intro hu
      have : encOpt E s u.slackChannelId n5 = none := by
        cases hv : u.slackChannelId with
        | none => rfl
        | some w =>
          have : w = "" := by simpa [falsyO, hv] using hu
          simp [encOpt, this]
      simp [applyPatch, patchField, this]
    · intro hu
      have : encOpt E s u.slackSigningSecret n6 = none := by
        cases hv : u.slackSigningSecret with
        | none => rfl
        | some w =>
          have : w = "" := by simpa [falsyO, hv] using hu
          simp [encOpt, this]
      simp [applyPatch, patchField, this]

theorem C6_partial_update_witness :
    updateBotConfiguration toyEnv "f" "u" 9 { searchLimit := some 25 } [saltedRow] =
      (.ok { id := "row1", workspaceName := "W",
             apacheAnswerApiUrl := "", apacheAnswerApiKey := "",
             slackBotToken := "", slackAppToken := "", slackChannelId := "",
             slackSigningSecret := "", searchLimit := 25, enableVoting := true,
             encryptionSalt := some "s1", createdAt := 1, updatedAt := 9 },
       [{ id := "row1", workspaceName := "W",
          apacheAnswerApiUrl := none, apacheAnswerApiKey := none,
          slackBotToken := none, slackAppToken := none, slackChannelId := none,
          slackSigningSecret := none, searchLimit := 25, enableVoting := true,
          encryptionSalt := some "s1", createdAt := 1, updatedAt := 9 }]) :=
  (C6_partial_update_frame toyEnv "f" "u" 9 saltedRow "s1" rfl (by decide)
    { id := "row1", workspaceName := "W", apacheAnswerApiUrl := "",
      apacheAnswerApiKey := "", slackBotToken := "", slackAppToken := "",
      slackChannelId := "", slackSigningSecret := "", searchLimit := 10,
      enableVoting := true, encryptionSalt := some "s1", createdAt := 1,
      updatedAt := 1 } rfl 25).1

/-- Claim C6 counterexample: on a legacy (salt-less) row, a
`searchLimit`-only update does NOT leave every other field unchanged: it
stamps a fresh `encryptionSalt` — and, the stored secret still being plain
text, the post-update read even fails to decrypt. -/
theorem C6_legacy_salt_change_counterexample :
    (updateBotConfiguration toyEnv "s1" "u1" 9 { searchLimit := some 25 } [legacyRow]).2
      = [{ legacyRow with searchLimit := 25, encryptionSalt := some "s1", updatedAt := 9 }] ∧
    legacyRow.encryptionSalt = none ∧
    (updateBotConfiguration toyEnv "s1" "u1" 9 { searchLimit := some 25 }
        [legacyRow]).1.toOption = none := by
  decide

/- ## Claim C2 -/

/-- Claim C2 (amended): the at-rest invariant — a present truthy salt means
every non-empty sensitive field is ciphertext under that salt — is
established by `createBotConfiguration` and preserved by
`updateBotConfiguration` on a singleton store whose row already carries a
truthy salt.  The original claim's extension to rows whose `encryptionSalt`
was previously absent is false (see the counterexample): upgrading a legacy
row stamps a fresh salt without re-encrypting the fields omitted from that
update. -/
theorem C2_encryption_invariant (E : Env) (hiv : IvStream16 E) :
    (∀ salt uuid now cfg db r', salt ≠ "" →
       (createBotConfiguration E salt uuid now cfg db).2 = db ++ [r'] →
       ConfigInvariant E r') ∧
    (∀ fs uuid now u r s r', r.encryptionSalt = some s → s ≠ "" →
       ConfigInvariant E r →
       (updateBotConfiguration E fs uuid now u [r]).2 = [r'] →
       ConfigInvariant E r') := by
  constructor
  · intro salt uuid now cfg db r' hsalt h
    obtain ⟨n1, n2, n3, n4, n5, n6, hpatch⟩ :=
      encryptConfiguration_ok E cfg salt hsalt 1
    unfold createBotConfiguration at h
    by_cases ht : testEncryption E (E.ivStream 0) salt = true
    · rw [if_pos ht, hpatch] at h
      cases hw : cfg.workspaceName with
      | none =>
        simp only [hw] at h
        simp at h
      | some wn =>
        simp only [hw] at h
        cases hd : decryptConfiguration E {
            id := uuid, workspaceName := wn,
            apacheAnswerApiUrl := encOpt E salt cfg.apacheAnswerApiUrl n1,
            apacheAnswerApiKey := encOpt E salt cfg.apacheAnswerApiKey n2,
            slackBotToken := encOpt E salt cfg.slackBotToken n3,
            slackAppToken := encOpt E salt cfg.slackAppToken n4,
            slackChannelId := encOpt E salt cfg.slackChannelId n5,
            slackSigningSecret := encOpt E salt cfg.slackSigningSecret n6,
            searchLimit := cfg.searchLimit.getD 10,
            enableVoting := cfg.enableVoting.getD true,
            encryptionSalt := some salt,
            createdAt := now, updatedAt := now } with
        | error e =>
          simp only [hd] at h
          have hrow := List.append_cancel_left h
          have hr' := (List.cons.inj hrow).1
          rw [← hr']
          intro s' hs' hs'ne
          have : s' = salt := by
            simp at hs'
            exact hs'.symm
          rw [this]
          exact ⟨sensInv_of_encOpt E hiv hsalt _ _,
            sensInv_of_encOpt E hiv hsalt _ _, sensInv_of_encOpt E hiv hsalt _ _,
            sensInv_of_encOpt E hiv hsalt _ _, sensInv_of_encOpt E hiv hsalt _ _,
            sensInv_of_encOpt E hiv hsalt _ _⟩
        | ok v =>
          simp only [hd] at h
          have hrow := List.append_cancel_left h
          have hr' := (List.cons.inj hrow).1
          rw [← hr']
          intro s' hs' hs'ne
          have : s' = salt := by
            simp at hs'
            exact hs'.symm
          rw [this]
          exact ⟨sensInv_of_encOpt E hiv hsalt _ _,
            sensInv_of_encOpt E hiv hsalt _ _, sensInv_of_encOpt E hiv hsalt _ _,
            sensInv_of_encOpt E hiv hsalt _ _, sensInv_of_encOpt E hiv hsalt _ _,
            sensInv_of_encOpt E hiv hsalt _ _⟩
    · rw [if_neg ht] at h
      simp at h
  · intro fs uuid now u r s r' hsalt hs hInv h
    cases hd : decryptConfiguration E r with
    | error e =>
      have hget : getBotConfiguration E [r] = .error e := by
        simp [getBotConfiguration, hd, Except.map]
      unfold updateBotConfiguration at h
      rw [hget] at h
      simp at h
      rw [← h]
      exact hInv
    | ok ex =>
      have hget : getBotConfiguration E [r] = .ok (some ex) := by
        simp [getBotConfiguration, hd, Except.map]
      have hid : ex.id = r.id := (decryptConfiguration_ok_fields E r ex hd).1
      have hsaltOf : saltOf fs [r] = s := by
        simp [saltOf, hsalt, hs]
      obtain ⟨n1, n2, n3, n4, n5, n6, hpatch⟩ :=
        encryptConfiguration_ok E u s hs 0
      unfold updateBotConfiguration at h
      rw [hget, hsaltOf, hpatch] at h
      simp [hid, applyPatch_id, snd_decrypt_match] at h
      rw [← h]
      intro s' hs' hs'ne
      have hinvr := hInv s hsalt hs
      have hss : s' = s := by
        simp [applyPatch, patchField] at hs'
        exact hs'.symm
      rw [hss]
      simp only [applyPatch]
      refine ⟨?_, ?_, ?_, ?_, ?_, ?_⟩
      · exact sensInv_update E s _ _ hinvr.1 (sensInv_of_encOpt E hiv hs _ _)
      · exact sensInv_update E s _ _ hinvr.2.1 (sensInv_of_encOpt E hiv hs _ _)
      · exact sensInv_update E s _ _ hinvr.2.2.1 (sensInv_of_encOpt E hiv hs _ _)
      · exact sensInv_update E s _ _ hinvr.2.2.2.1 (sensInv_of_encOpt E hiv hs _ _)
      · exact sensInv_update E s _ _ hinvr.2.2.2.2.1 (sensInv_of_encOpt E hiv hs _ _)
      · exact sensInv_update E s _ _ hinvr.2.2.2.2.2 (sensInv_of_encOpt E hiv hs _ _)

theorem C2_invariant_witness :
    ConfigInvariant toyEnv
      ((createBotConfiguration toyEnv "s1" "u1" 5
        { workspaceName := some "W", slackBotToken := some "tok" } []).2.headI) :=
  (C2_encryption_invariant toyEnv toyEnv_ivStream16).1 "s1" "u1" 5
    { workspaceName := some "W", slackBotToken := some "tok" } []
    ((createBotConfiguration toyEnv "s1" "u1" 5
        { workspaceName := some "W", slackBotToken := some "tok" } []).2.headI)
    (by decide) (by decide)

/-- Claim C2 counterexample: updating only `workspaceName` on a legacy
(salt-less) row leaves a row whose `encryptionSalt` is present while its
non-empty `slackBotToken` is still the stored plain text — which is not a
ciphertext under that salt (every encrypted value is at least 64 hex
characters long), so the invariant is violated by this write. -/
theorem C2_legacy_counterexample :
    (updateBotConfiguration toyEnv "s1" "u1" 9 { workspaceName := some "X" } [legacyRow]).2
      = [legacyPatched] ∧
    legacyPatched.encryptionSalt = some "s1" ∧
    legacyPatched.slackBotToken = some "xoxb-AAA" ∧
    ¬ IsCiphertextUnder toyEnv "s1" "xoxb-AAA" ∧
    ¬ ConfigInvariant toyEnv legacyPatched := by
  have hnc : ¬ IsCiphertextUnder toyEnv "s1" "xoxb-AAA" := by
    rintro ⟨iv, p, h16, hp, henc⟩
    rw [encrypt_pos toyEnv iv hp (by decide)] at henc
    have hb := Option.some.inj henc
    have hlen := encBody_data_length toyEnv iv p "s1"
    rw [hb, h16] at hlen
    simp at hlen
    omega
  refine ⟨by decide, rfl, rfl, hnc, fun hci => hnc ?_⟩
  have h2 := hci "s1" rfl (by decide)
  exact h2.2.2.1 "xoxb-AAA" rfl (by decide)

/- ## Claims C1 and C7 -/

/-- What the first `updateBotConfiguration` call on an empty store does:
it creates the environment-default record — the caller's update `u` is
discarded, whatever it contains. -/
theorem first_update_creates (E : Env) (fs uuid : String) (now : Nat)
    (u : ConfigurationUpdate) (L : Int)
    (hrt : RoundTripEnv E) (hiv : IvStream16 E) (hfs : fs ≠ "")
    (hL : jsParseInt (jsOr E.searchResultLimitEnv "10") = some L)
    (hns : NoSensEnv E) :
    ∃ c, encrypt E (E.ivStream 1)
        (jsOr E.apacheAnswerApiUrlEnv "https://meta.answer.dev") fs = some c ∧
      updateBotConfiguration E fs uuid now u [] =
        (.ok { id := uuid, workspaceName := "Apache Team",
               apacheAnswerApiUrl := jsOr E.apacheAnswerApiUrlEnv "https://meta.answer.dev",
               apacheAnswerApiKey := "", slackBotToken := "", slackAppToken := "",
               slackChannelId := "", slackSigningSecret := "",
               searchLimit := L, enableVoting := true,
               encryptionSalt := some fs, createdAt := now, updatedAt := now },
         [{ id := uuid, workspaceName := "Apache Team",
            apacheAnswerApiUrl := some c, apacheAnswerApiKey := none,
            slackBotToken := none, slackAppToken := none, slackChannelId := none,
            slackSigningSecret := none, searchLimit := L, enableVoting := true,
            encryptionSalt := some fs, createdAt := now, updatedAt := now }]) := by
  have hurl : jsOr E.apacheAnswerApiUrlEnv "https://meta.answer.dev" ≠ "" :=
    jsOr_ne_empty _ (by decide)
  obtain ⟨hk, hbt, hat, hch, hss⟩ := hns
  refine ⟨encBody E (E.ivStream 1)
    (jsOr E.apacheAnswerApiUrlEnv "https://meta.answer.dev") fs,
    encrypt_pos E _ hurl hfs, ?_⟩
  have htest := testEncryption_of_roundtrip E hrt hfs
  have hpatch : encryptConfiguration E (defaultConfig E) fs 1 = .ok {
      workspaceName := some "Apache Team", searchLimit := some L,
      enableVoting := some true,
      apacheAnswerApiUrl := some (encBody E (E.ivStream 1)
        (jsOr E.apacheAnswerApiUrlEnv "https://meta.answer.dev") fs),
      apacheAnswerApiKey := none, slackBotToken := none, slackAppToken := none,
      slackChannelId := none, slackSigningSecret := none,
      encryptionSalt := some fs } := by
    simp [encryptConfiguration, encSens, defaultConfig, hurl,
      encrypt_pos E (E.ivStream 1) hurl hfs, jsOr_falsy hk, jsOr_falsy hbt,
      jsOr_falsy hat, jsOr_falsy hch, jsOr_falsy hss, hL]
  have hcne : encBody E (E.ivStream 1)
      (jsOr E.apacheAnswerApiUrlEnv "https://meta.answer.dev") fs ≠ "" :=
    encBody_ne_empty E _ _ _ (hiv 1)
  have hdec := hrt 1 (jsOr E.apacheAnswerApiUrlEnv "https://meta.answer.dev") fs hurl hfs
  rw [encrypt_pos E _ hurl hfs] at hdec
  simp only [Option.getD] at hdec
  have hrowdec : decryptConfiguration E
      { id := uuid, workspaceName := "Apache Team",
        apacheAnswerApiUrl := some (encBody E (E.ivStream 1)
          (jsOr E.apacheAnswerApiUrlEnv "https://meta.answer.dev") fs),
        apacheAnswerApiKey := none, slackBotToken := none, slackAppToken := none,
        slackChannelId := none, slackSigningSecret := none,
        searchLimit := L, enableVoting := true,
        encryptionSalt := some fs, createdAt := now, updatedAt := now } = .ok
      { id := uuid, workspaceName := "Apache Team",
        apacheAnswerApiUrl := jsOr E.apacheAnswerApiUrlEnv "https://meta.answer.dev",
        apacheAnswerApiKey := "", slackBotToken := "", slackAppToken := "",
        slackChannelId := "", slackSigningSecret := "",
        searchLimit := L, enableVoting := true,
        encryptionSalt := some fs, createdAt := now, updatedAt := now } := by
    simp [decryptConfiguration, falsyO, hfs, decSens, hcne, hdec]
  have hstep : updateBotConfiguration E fs uuid now u [] =
      createBotConfiguration E fs uuid now (defaultConfig E) [] := rfl
  rw [hstep]
  unfold createBotConfiguration
  rw [if_pos htest]
  simp [hpatch, hrowdec]

/-- Claim C1 (amended): when no record exists, `updateBotConfiguration(u)`
creates exactly one record holding the application defaults — the fields of
`u` are NOT merged in; the update argument is ignored on this path — and
returns its decrypted view.  (Hypotheses: the AEAD round-trip contract, a
16-byte IV stream, a truthy generated salt, a parseable search-limit
environment value, and no sensitive environment overrides except possibly
the Apache Answer URL.) -/
theorem C1_first_update_ignores_update (E : Env) (fs uuid : String) (now : Nat)
    (u : ConfigurationUpdate) (L : Int)
    (hrt : RoundTripEnv E) (hiv : IvStream16 E) (hfs : fs ≠ "")
    (hL : jsParseInt (jsOr E.searchResultLimitEnv "10") = some L)
    (hns : NoSensEnv E) :
    ∃ c, encrypt E (E.ivStream 1)
        (jsOr E.apacheAnswerApiUrlEnv "https://meta.answer.dev") fs = some c ∧
      updateBotConfiguration E fs uuid now u [] =
        (.ok { id := uuid, workspaceName := "Apache Team",
               apacheAnswerApiUrl := jsOr E.apacheAnswerApiUrlEnv "https://meta.answer.dev",
               apacheAnswerApiKey := "", slackBotToken := "", slackAppToken := "",
               slackChannelId := "", slackSigningSecret := "",
               searchLimit := L, enableVoting := true,
               encryptionSalt := some fs, createdAt := now, updatedAt := now },
         [{ id := uuid, workspaceName := "Apache Team",
            apacheAnswerApiUrl := some c, apacheAnswerApiKey := none,
            slackBotToken := none, slackAppToken := none, slackChannelId := none,
            slackSigningSecret := none, searchLimit := L, enableVoting := true,
            encryptionSalt := some fs, createdAt := now, updatedAt := now }]) :=
  first_update_creates E fs uuid now u L hrt hiv hfs hL hns

theorem C1_first_update_witness :
    updateBotConfiguration toyEnv "fs1" "u1" 5 { searchLimit := some 25 } [] =
      (.ok { id := "u1", workspaceName := "Apache Team",
             apacheAnswerApiUrl := "https://meta.answer.dev", apacheAnswerApiKey := "",
             slackBotToken := "", slackAppToken := "", slackChannelId := "",
             slackSigningSecret := "", searchLimit := 10, enableVoting := true,
             encryptionSalt := some "fs1", createdAt := 5, updatedAt := 5 },
       [{ id := "u1", workspaceName := "Apache Team",
          apacheAnswerApiUrl := some ((encrypt toyEnv (toyEnv.ivStream 1)
            "https://meta.answer.dev" "fs1").getD ""),
          apacheAnswerApiKey := none, slackBotToken := none, slackAppToken := none,
          slackChannelId := none, slackSigningSecret := none,
          searchLimit := 10, enableVoting := true,
          encryptionSalt := some "fs1", createdAt := 5, updatedAt := 5 }]) := by
  obtain ⟨c, hc, heq⟩ := C1_first_update_ignores_update toyEnv "fs1" "u1" 5
    { searchLimit := some 25 } 10 toyEnv_roundtrip toyEnv_ivStream16
    (by decide) (by decide) ⟨rfl, rfl, rfl, rfl, rfl⟩
  rw [heq]
  have hrfl : encrypt toyEnv (toyEnv.ivStream 1) "https://meta.answer.dev" "fs1"
      = encrypt toyEnv (toyEnv.ivStream 1)
          (jsOr toyEnv.apacheAnswerApiUrlEnv "https://meta.answer.dev") "fs1" := rfl
  rw [hrfl, hc]
  rfl

/-- Claim C1 counterexample: from an empty store,
`update({searchLimit: 25})` persists and returns `searchLimit = 10` (the
environment default) — the update's own field is dropped, refuting
"defaults overridden by every field present in u". -/
theorem C1_update_dropped_counterexample :
    ((updateBotConfiguration toyEnv "s1" "u1" 5 { searchLimit := some 25 } []).2.map
        (·.searchLimit)) = [10] ∧
    ((updateBotConfiguration toyEnv "s1" "u1" 5 { searchLimit := some 25 } []).1.toOption.map
        (·.searchLimit)) = some 10 ∧
    (10 : Int) ≠ 25 := by
  decide

theorem createBot_snd (E : Env) (salt uuid : String) (now : Nat)
    (cfg : ConfigurationUpdate) (db : List BotConfiguration) :
    (createBotConfiguration E salt uuid now cfg db).2 = db ∨
    ∃ row, (createBotConfiguration E salt uuid now cfg db).2 = db ++ [row] := by
  unfold createBotConfiguration
  simp only []
  repeat' split
  all_goals first
    | (left; rfl)
    | (right; exact ⟨_, rfl⟩)

theorem updateBot_snd_singleton (E : Env) (fs uuid : String) (now : Nat)
    (u : ConfigurationUpdate) (x : BotConfiguration) :
    ((updateBotConfiguration E fs uuid now u [x]).2).length = 1 := by
  unfold updateBotConfiguration
  cases hd : decryptConfiguration E x with
  | error e =>
    have hget : getBotConfiguration E [x] = .error e := by
      simp [getBotConfiguration, hd, Except.map]
    rw [hget]
    rfl
  | ok ex =>
    have hget : getBotConfiguration E [x] = .ok (some ex) := by
      simp [getBotConfiguration, hd, Except.map]
    rw [hget]
    repeat' split
    all_goals try simp_all
    all_goals (split_ifs <;> repeat' split <;> simp_all)

theorem runRepoOps_le_one (E : Env) (ops : List RepoOp) :
    ∀ db : List BotConfiguration, db.length ≤ 1 →
      (runRepoOps E ops db).length ≤ 1 := by
  induction ops with
  | nil => intro db h; exact h
  | cons op rest ih =>
    intro db h
    apply ih
    cases op with
    | getCfg => exact h
    | updateCfg s u n cfg =>
      cases db with
      | nil =>
        show ((updateBotConfiguration E s u n cfg []).2).length ≤ 1
        have hstep : updateBotConfiguration E s u n cfg [] =
            createBotConfiguration E s u n (defaultConfig E) [] := rfl
        rw [hstep]
        rcases createBot_snd E s u n (defaultConfig E) [] with hc | ⟨row, hc⟩
        · rw [hc]; simp
        · rw [hc]; simp
      | cons x rest2 =>
        cases rest2 with
        | nil =>
          show ((updateBotConfiguration E s u n cfg [x]).2).length ≤ 1
          rw [updateBot_snd_singleton]
        | cons y t =>
          simp at h

/-- Claim C7 (amended): starting from an empty store, after two sequential
`updateBotConfiguration` calls exactly one record exists (the first call
creating it, under the creation-success hypotheses); and every sequence of
`getBotConfiguration`/`updateBotConfiguration` operations keeps at most one
record.  The original claim's "at most one record under sequential use of
the repository operations" does not extend to direct
`createBotConfiguration` calls, which insert unconditionally (see the
counterexample). -/
theorem C7_singleton_semantics (E : Env) (L : Int) (fs fs2 uuid uuid2 : String)
    (now now2 : Nat) (u1 u2 : ConfigurationUpdate)
    (hrt : RoundTripEnv E) (hiv : IvStream16 E) (hfs : fs ≠ "")
    (hL : jsParseInt (jsOr E.searchResultLimitEnv "10") = some L)
    (hns : NoSensEnv E) :
    ((updateBotConfiguration E fs2 uuid2 now2 u2
        (updateBotConfiguration E fs uuid now u1 []).2).2).length = 1 ∧
    ∀ ops : List RepoOp, (runRepoOps E ops []).length ≤ 1 := by
  constructor
  · obtain ⟨c, hc, heq⟩ := first_update_creates E fs uuid now u1 L hrt hiv hfs hL hns
    rw [heq]
    exact updateBot_snd_singleton E fs2 uuid2 now2 u2 _
  · intro ops
    exact runRepoOps_le_one E ops [] (by simp)

theorem C7_singleton_witness :
    ((updateBotConfiguration toyEnv "fs2" "u2" 7 {}
        (updateBotConfiguration toyEnv "fs1" "u1" 5 {} []).2).2).length = 1 :=
  (C7_singleton_semantics toyEnv 10 "fs1" "fs2" "u1" "u2" 5 7 {} {}
    toyEnv_roundtrip toyEnv_ivStream16 (by decide) (by decide)
    ⟨rfl, rfl, rfl, rfl, rfl⟩).1

/-- Claim C7 counterexample: `createBotConfiguration` is a repository
operation (`IStorage.createBotConfiguration`) and inserts unconditionally:
two sequential creates leave two records, so "at most one record ever
exists under sequential use of the repository operations" fails. -/
theorem C7_double_create_counterexample :
    ((createBotConfiguration toyEnv "s2" "u2" 7 { workspaceName := some "W" }
        (createBotConfiguration toyEnv "s1" "u1" 5
          { workspaceName := some "W" } []).2).2).length = 2 := by
  decide

end Aabot
